import Mathlib

/-!
Shallow embedding of the ZNews Selenium crawler (link_collector.py,
article_crawler.py, utils.py, config/config.py) and proofs about it.

Browser interaction is modelled by explicit environments: a page snapshot
per scroll iteration for the link collector, and a map from URL to page
content for the article crawler.  Python exceptions are modelled with
`Except PyExc` where the distinction between "caught" and "propagated"
matters, and with `Option` elsewhere.  Machine integers are `Int`/`Nat`
(Python integers are unbounded, so no wrap-around is modelled).
-/

namespace ZNews

/-! ### Python string/int helpers (utils.py building blocks) -/

/-- Characters treated as whitespace by Python's `str.strip()` / `int()`
(ASCII subset). -/
def isPySpace (c : Char) : Bool :=
  c = ' ' || c = '\t' || c = '\n' || c = '\r' || c = '\x0B' || c = '\x0C'

/-- Python `str.strip()` on a character list. -/
def pyStripChars (cs : List Char) : List Char :=
  ((cs.dropWhile isPySpace).reverse.dropWhile isPySpace).reverse

/-- Python `str.strip()`. -/
def pyStrip (s : String) : String :=
  String.mk (pyStripChars s.data)

/-- Python `str.split(sep)` on a character list: split at every
occurrence of `sep`, keeping empty pieces (a trailing separator yields a
final empty piece). -/
def splitSep (sep : Char) : List Char → List (List Char)
  | [] => [[]]
  | c :: rest =>
      if c = sep then [] :: splitSep sep rest
      else
        match splitSep sep rest with
        | h :: t => (c :: h) :: t
        | [] => [[c]]

/-- Numeric value of an ASCII digit. -/
def digitVal (c : Char) : Nat := c.toNat - 48

/-- Digits after the first one in a Python integer literal; single
underscores are allowed between digits. -/
def parseUDigits : Nat → List Char → Option Nat
  | acc, [] => some acc
  | acc, '_' :: c :: rest =>
      if c.isDigit then parseUDigits (acc * 10 + digitVal c) rest else none
  | _, ['_'] => none
  | acc, c :: rest =>
      if c.isDigit then parseUDigits (acc * 10 + digitVal c) rest else none

/-- Unsigned decimal integer body accepted by Python `int()`. -/
def parseUInt : List Char → Option Nat
  | c :: rest => if c.isDigit then parseUDigits (digitVal c) rest else none
  | [] => none

/-- Python `int(s)` for a decimal string: surrounding whitespace is
stripped, an optional sign is allowed, then digits (with optional single
underscores between them).  `none` models a raised `ValueError`. -/
def pyInt (s : String) : Option Int :=
  match pyStripChars s.data with
  | '+' :: rest => (parseUInt rest).map (fun n => (n : Int))
  | '-' :: rest => (parseUInt rest).map (fun n => -(n : Int))
  | rest => (parseUInt rest).map (fun n => (n : Int))

/-! ### The datetime model (Python `datetime.datetime`) -/

/-- A constructed `datetime.datetime` value.  `tzOffset` is the timezone
offset in whole seconds (`none` for a naive datetime). -/
structure PyDatetime where
  year : Int
  month : Int
  day : Int
  hour : Int
  minute : Int
  second : Int
  tzOffset : Option Int
deriving DecidableEq

/-- Gregorian leap-year rule used by `datetime`. -/
def isLeap (y : Int) : Bool :=
  y % 4 == 0 && (y % 100 != 0 || y % 400 == 0)

/-- Days in a month, as validated by the `datetime` constructor. -/
def daysInMonth (y m : Int) : Int :=
  if m = 2 then (if isLeap y then 29 else 28)
  else if m = 4 ∨ m = 6 ∨ m = 9 ∨ m = 11 then 30
  else 31

/-- Python `timezone(timedelta(seconds=off))` requires the offset to lie
strictly between -24 and +24 hours. -/
def tzWithin : Option Int → Bool
  | none => true
  | some off => decide (-86400 < off) && decide (off < 86400)

/-- The `datetime.datetime` constructor: `none` models the `ValueError`
raised on out-of-range fields (`MINYEAR = 1`, `MAXYEAR = 9999`). -/
def mkDatetime (y mo d h mi s : Int) (tz : Option Int) : Option PyDatetime :=
  if 1 ≤ y ∧ y ≤ 9999 ∧ 1 ≤ mo ∧ mo ≤ 12 ∧ 1 ≤ d ∧ d ≤ daysInMonth y mo
      ∧ 0 ≤ h ∧ h ≤ 23 ∧ 0 ≤ mi ∧ mi ≤ 59 ∧ 0 ≤ s ∧ s ≤ 59
      ∧ tzWithin tz = true
  then some ⟨y, mo, d, h, mi, s, tz⟩ else none

/-! ### `strptime` scanners for the two formats used by `parse_iso_date`

CPython's `_strptime` compiles each directive to a regex; for the formats
`%Y-%m-%dT%H:%M:%S%z` and `%Y-%m-%d` every 1-or-2-digit field is followed
by a non-digit delimiter (or end of input), so greedy matching with
backtracking reduces to: read the maximal digit run, accept it iff its
length is 1 or 2 and the value is in the directive's range. -/

/-- `%Y`: exactly four digits. -/
def parse4Y : List Char → Option (Nat × List Char)
  | a :: b :: c :: d :: rest =>
      if a.isDigit && b.isDigit && c.isDigit && d.isDigit then
        some (digitVal a * 1000 + digitVal b * 100 + digitVal c * 10 + digitVal d, rest)
      else none
  | _ => none

/-- A 1-or-2-digit directive: value range `lo1..hi1` for one digit,
`lo2..hi2` for two digits (e.g. `%m` is `1..9` / `1..12`). -/
def take12 (lo1 hi1 lo2 hi2 : Nat) (cs : List Char) : Option (Nat × List Char) :=
  match cs.takeWhile Char.isDigit with
  | [d] =>
      if lo1 ≤ digitVal d ∧ digitVal d ≤ hi1 then
        some (digitVal d, cs.dropWhile Char.isDigit)
      else none
  | [d1, d2] =>
      let v := digitVal d1 * 10 + digitVal d2
      if lo2 ≤ v ∧ v ≤ hi2 then some (v, cs.dropWhile Char.isDigit) else none
  | _ => none

/-- A literal character in the format string. -/
def expectChar (c : Char) : List Char → Option (List Char)
  | x :: rest => if x = c then some rest else none
  | [] => none

/-- The literal `T`; strptime compiles its pattern with `IGNORECASE`, so a
lowercase `t` also matches. -/
def expectT : List Char → Option (List Char)
  | c :: rest => if c = 'T' ∨ c = 't' then some rest else none
  | [] => none

/-- Exactly two digits (`\d\d`, the `%z` hour field). -/
def parse2d : List Char → Option (Nat × List Char)
  | a :: b :: rest =>
      if a.isDigit && b.isDigit then some (digitVal a * 10 + digitVal b, rest)
      else none
  | _ => none

/-- `[0-5]\d` (the `%z` minute and second fields). -/
def parseMin2 : List Char → Option (Nat × List Char)
  | a :: b :: rest =>
      if ('0' ≤ a ∧ a ≤ '5') ∧ b.isDigit then
        some (digitVal a * 10 + digitVal b, rest)
      else none
  | _ => none

/-- Fractional part `\.\d{1,6}` inside `%z` (parsed, value discarded:
it only contributes sub-second precision to the offset). -/
def parseFrac : List Char → Option (List Char)
  | '.' :: rest =>
      let ds := rest.takeWhile Char.isDigit
      if 1 ≤ ds.length ∧ ds.length ≤ 6 then some (rest.dropWhile Char.isDigit)
      else none
  | _ => none

/-- Optional seconds group `(:?[0-5]\d(\.\d{1,6})?)?` of `%z`; on failure
the input is left untouched (the caller's end-of-input check then fails
exactly when the regex engine would fail). -/
def parseSecOpt (cs : List Char) : Nat × List Char :=
  let cs1 := match cs with | ':' :: r => r | r => r
  match parseMin2 cs1 with
  | some (ss, r1) =>
      match parseFrac r1 with
      | some r2 => (ss, r2)
      | none => (ss, r1)
  | none => (0, cs)

/-- The `%z` directive: `[+-]\d\d:?[0-5]\d(:?[0-5]\d(\.\d{1,6})?)?|Z`.
Returns the offset in signed whole seconds. -/
def parseZ : List Char → Option (Int × List Char)
  | 'Z' :: rest => some (0, rest)
  | c :: rest =>
      if c = '+' ∨ c = '-' then
        match parse2d rest with
        | some (hh, r1) =>
            let r1' := match r1 with | ':' :: r => r | r => r
            match parseMin2 r1' with
            | some (mm, r2) =>
                let p := parseSecOpt r2
                let total : Int := ((hh * 3600 + mm * 60 + p.1 : Nat) : Int)
                some (if c = '-' then -total else total, p.2)
            | none => none
        | none => none
      else none
  | [] => none

/-- Scanner for `%Y-%m-%dT%H:%M:%S%z` (field values, before `datetime`
construction); `strptime` requires the whole string to be consumed. -/
def scanIsoZ (cs : List Char) : Option (Nat × Nat × Nat × Nat × Nat × Nat × Int) := do
  let (y, r1) ← parse4Y cs
  let r2 ← expectChar '-' r1
  let (mo, r3) ← take12 1 9 1 12 r2
  let r4 ← expectChar '-' r3
  let (d, r5) ← take12 1 9 1 31 r4
  let r6 ← expectT r5
  let (h, r7) ← take12 0 9 0 23 r6
  let r8 ← expectChar ':' r7
  let (mi, r9) ← take12 0 9 0 59 r8
  let r10 ← expectChar ':' r9
  let (s, r11) ← take12 0 9 0 59 r10
  let (off, r12) ← parseZ r11
  if r12 = [] then pure (y, mo, d, h, mi, s, off) else none

/-- Scanner for `%Y-%m-%d`. -/
def scanDateOnly (cs : List Char) : Option (Nat × Nat × Nat) := do
  let (y, r1) ← parse4Y cs
  let r2 ← expectChar '-' r1
  let (mo, r3) ← take12 1 9 1 12 r2
  let r4 ← expectChar '-' r3
  let (d, r5) ← take12 1 9 1 31 r4
  if r5 = [] then pure (y, mo, d) else none

/-- `datetime.strptime(s, "%Y-%m-%dT%H:%M:%S%z")`; `none` models the
`ValueError` raised on a format mismatch, an invalid calendar date, or an
out-of-range timezone offset. -/
def strptimeIsoZ (s : String) : Option PyDatetime :=
  match scanIsoZ s.data with
  | some (y, mo, d, h, mi, sec, off) =>
      mkDatetime (y : Int) (mo : Int) (d : Int) (h : Int) (mi : Int) (sec : Int) (some off)
  | none => none

/-- `datetime.strptime(s, "%Y-%m-%d")`. -/
def strptimeDateOnly (s : String) : Option PyDatetime :=
  match scanDateOnly s.data with
  | some (y, mo, d) => mkDatetime (y : Int) (mo : Int) (d : Int) 0 0 0 none
  | none => none

/-! ### utils.parse_iso_date and utils.parse_date_from_text -/

/-- utils.parse_iso_date: try the full ISO format, then the date-only
format, catching the `ValueError` each raises. -/
def parse_iso_date (s : String) : Option PyDatetime :=
  match strptimeIsoZ s with
  | some d => some d
  | none => strptimeDateOnly s

/-- utils.parse_date_from_text: split on `/`; with exactly three parts,
convert `day, month, year` with `int()` and build a `datetime`; any
`ValueError` is caught and yields `None`. -/
def parse_date_from_text (s : String) : Option PyDatetime :=
  match (splitSep '/' s.data).map String.mk with
  | [d, m, y] =>
      match pyInt y, pyInt m, pyInt d with
      | some yi, some mi, some di => mkDatetime yi mi di 0 0 0 none
      | _, _, _ => none
  | _ => none

/-! ### Exception-level model of the two parsers

`Except PyExc` distinguishes a value returned from an exception raised, so
that "the `except` clauses cover everything the body can raise" is a real
statement rather than a by-construction triviality. -/

/-- Python exception classes relevant to the parsers. -/
inductive PyExc where
  | valueError
  | indexError
  | overflowError
  | typeError
  | otherExc
deriving DecidableEq

/-- Python `int()` on a string raises `ValueError` when the string is not
a valid integer literal. -/
def pyIntExc (s : String) : Except PyExc Int :=
  match pyInt s with
  | some n => .ok n
  | none => .error .valueError

/-- Whether a Python integer fits in a C `int`: the C implementation of
the `datetime` constructor converts each field with the `"i"` argument
format, which raises `OverflowError` (not `ValueError`) outside this
range. -/
def fitsCInt (v : Int) : Bool :=
  decide (-2147483648 ≤ v) && decide (v ≤ 2147483647)

/-- The `datetime` constructor at the exception level: a field outside
the C `int` range raises `OverflowError` during argument conversion;
in-range but invalid fields raise `ValueError`. -/
def mkDatetimeExc (y mo d h mi s : Int) (tz : Option Int) : Except PyExc PyDatetime :=
  if fitsCInt y && fitsCInt mo && fitsCInt d && fitsCInt h &&
      fitsCInt mi && fitsCInt s then
    match mkDatetime y mo d h mi s tz with
    | some dt => .ok dt
    | none => .error .valueError
  else .error .overflowError

/-- `strptime` with the full ISO format raises `ValueError` on a format
mismatch, an invalid date, or an out-of-range offset. -/
def strptimeIsoZExc (s : String) : Except PyExc PyDatetime :=
  match strptimeIsoZ s with
  | some dt => .ok dt
  | none => .error .valueError

/-- `strptime` with the date-only format. -/
def strptimeDateOnlyExc (s : String) : Except PyExc PyDatetime :=
  match strptimeDateOnly s with
  | some dt => .ok dt
  | none => .error .valueError

/-- The `try` body of `parse_date_from_text`: split, unpack when there are
three parts (evaluating `int(year)`, `int(month)`, `int(day)` in that
order), construct the `datetime`, otherwise fall through to `None`. -/
def parse_date_from_text_body (s : String) : Except PyExc (Option PyDatetime) :=
  match (splitSep '/' s.data).map String.mk with
  | [d, m, y] => do
      let yi ← pyIntExc y
      let mi ← pyIntExc m
      let di ← pyIntExc d
      let dt ← mkDatetimeExc yi mi di 0 0 0 none
      pure (some dt)
  | _ => pure none

/-- `parse_date_from_text` with its `except (ValueError, IndexError)`
handler; other exception classes (in particular the constructor's
`OverflowError`) propagate. -/
def parse_date_from_text_exc (s : String) : Except PyExc (Option PyDatetime) :=
  match parse_date_from_text_body s with
  | .ok v => .ok v
  | .error .valueError => .ok none
  | .error .indexError => .ok none
  | .error e => .error e

/-- `parse_iso_date` with its two nested `except ValueError` handlers;
other exception classes would propagate. -/
def parse_iso_date_exc (s : String) : Except PyExc (Option PyDatetime) :=
  match strptimeIsoZExc s with
  | .ok dt => .ok (some dt)
  | .error .valueError =>
      match strptimeDateOnlyExc s with
      | .ok dt => .ok (some dt)
      | .error .valueError => .ok none
      | .error e => .error e
  | .error e => .error e

/-! ### Configuration constants (config/config.py) -/

/-- config.MAX_SCROLLS. -/
def MAX_SCROLLS : Nat := 50

/-- config.TARGET_YEAR. -/
def TARGET_YEAR : Int := 2024

/-! ### Link collector (link_collector.py)

An article-list item is modelled by what the collector reads from it.  An
outer `none` on an element field models `NoSuchElementException` from
`find_element`; an inner `none` models `get_attribute` returning `None`. -/

/-- One `article-item` (or `<article>`) element as seen by the collector. -/
structure Article where
  /-- `datetime` attribute of the item's `<time>` element; outer `none`:
  no `<time>` element, inner `none`: attribute absent. -/
  timeAttr : Option (Option String)
  /-- text of the item's `.date` element; `none`: no such element. -/
  dateText : Option String
  /-- `href` of the `a` inside the item's `article-thumbnail` element;
  outer `none`: element chain missing, inner `none`: attribute absent. -/
  thumbHref : Option (Option String)
  /-- `href` of the item's first `a` element (article-based method). -/
  anchorHref : Option (Option String)
deriving DecidableEq

/-- Format-1 branch of `check_article_year`: the `<time>` element's
`datetime` attribute when present and truthy, parsed as ISO.  Python
truthiness: the empty string is falsy. -/
def yearFromTime (ta : Option (Option String)) : Option Int :=
  match ta with
  | some (some ds) =>
      if ds ≠ "" then
        match parse_iso_date ds with
        | some dt => some dt.year
        | none => none
      else none
  | _ => none

/-- Format-2 branch of `check_article_year`: the `.date` element's text,
stripped, parsed as `DD/MM/YYYY` when truthy. -/
def yearFromDateText (dt : Option String) : Option Int :=
  match dt with
  | some txt =>
      if pyStrip txt ≠ "" then
        match parse_date_from_text (pyStrip txt) with
        | some d => some d.year
        | none => none
      else none
  | none => none

/-- LinkCollector.check_article_year: prefer the `<time>` element's
`datetime` attribute parsed as ISO; fall back to the `.date` element's
stripped text parsed as `DD/MM/YYYY`; `None` when both fail. -/
def check_article_year (a : Article) : Option Int :=
  match yearFromTime a.timeAttr with
  | some y => some y
  | none => yearFromDateText a.dateText

/-- Python `set.add` on a list model: adding an element already present
leaves the collection unchanged. -/
def setAdd (links : List String) (l : String) : List String :=
  if l ∈ links then links else links ++ [l]

/-- One page snapshot per scroll iteration of the scroll-based collector.
`articles` is the `article-item` list of the `news-latest` container
(`none`: the container lookup raised `NoSuchElementException`);
`newHeight` is `document.body.scrollHeight` measured after this
iteration's scroll. -/
structure Snapshot where
  articles : Option (List Article)
  newHeight : Int

/-- The `for article in reversed(articles)` body of
`collect_links_scroll_based`, applied to the processing-order list.
`.error` models the early `return links` (year below target, or the
max-links check); `.ok` means the loop fell through.  Python truthiness:
`year and ...` is falsy for `year = 0`. -/
def innerFor (target maxLinks : Int) : List Article → List String →
    Except (List String) (List String)
  | [], links => .ok links
  | a :: rest, links =>
      match check_article_year a with
      | some y =>
          if y ≠ 0 ∧ y > target then
            innerFor target maxLinks rest links
          else if y ≠ 0 ∧ y = target then
            match a.thumbHref with
            | none => innerFor target maxLinks rest links
            | some linkAttr =>
                let links' :=
                  match linkAttr with
                  | some l => if l ≠ "" then setAdd links l else links
                  | none => links
                if maxLinks ≤ (links'.length : Int) then .error links'
                else innerFor target maxLinks rest links'
          else if y ≠ 0 ∧ y < target then .error links
          else if maxLinks ≤ (links.length : Int) then .error links
          else innerFor target maxLinks rest links
      | none =>
          if maxLinks ≤ (links.length : Int) then .error links
          else innerFor target maxLinks rest links

/-- One pass over a snapshot: a missing container is caught (warning) and
the iteration falls through to the scroll. -/
def passSnap (target maxLinks : Int) (snap : Snapshot) (links : List String) :
    Except (List String) (List String) :=
  match snap.articles with
  | none => .ok links
  | some arts => innerFor target maxLinks arts.reverse links

/-- The `while scroll_count < MAX_SCROLLS` loop of
`collect_links_scroll_based`.  `fuel` is `MAX_SCROLLS - scroll_count`,
`i` indexes the snapshot stream, `scrolls` counts executed scroll
commands, `lastH` is the previously measured height.  Returns the link
collection and the number of scrolls performed. -/
def scrollGo (env : Nat → Snapshot) (target maxLinks : Int) :
    Nat → Nat → Nat → Int → List String → List String × Nat
  | 0, _, scrolls, _, links => (links, scrolls)
  | fuel + 1, i, scrolls, lastH, links =>
      match passSnap target maxLinks (env i) links with
      | .error links' => (links', scrolls)
      | .ok links' =>
          if (env i).newHeight = lastH then (links', scrolls + 1)
          else scrollGo env target maxLinks fuel (i + 1) (scrolls + 1)
            (env i).newHeight links'

/-- LinkCollector.collect_links_scroll_based over a snapshot stream;
`initH` is the height measured before the loop. -/
def collect_links_scroll_based (env : Nat → Snapshot) (initH : Int)
    (target maxLinks : Int) : List String × Nat :=
  scrollGo env target maxLinks MAX_SCROLLS 0 0 initH []

/-- The `for article in articles` body of `collect_links_article_based`;
`.error` models `break` (max-links check).  A link is added only when
truthy and not already present. -/
def innerForArt (target maxLinks : Int) : List Article → List String →
    Except (List String) (List String)
  | [], links => .ok links
  | a :: rest, links =>
      if check_article_year a = some target then
        match a.anchorHref with
        | none => innerForArt target maxLinks rest links
        | some linkAttr =>
            let links' :=
              match linkAttr with
              | some l => if l ≠ "" ∧ l ∉ links then links ++ [l] else links
              | none => links
            if maxLinks ≤ (links'.length : Int) then .error links'
            else innerForArt target maxLinks rest links'
      else
        if maxLinks ≤ (links.length : Int) then .error links
        else innerForArt target maxLinks rest links

/-- The `while scroll_count < MAX_SCROLLS and len(links) < max_links`
loop of `collect_links_article_based`; after the inner loop (broken or
not) the page is scrolled and the counter incremented. -/
def artGo (env : Nat → List Article) (target maxLinks : Int) :
    Nat → Nat → List String → List String
  | 0, _, links => links
  | fuel + 1, i, links =>
      if (links.length : Int) < maxLinks then
        match innerForArt target maxLinks (env i) links with
        | .ok links' => artGo env target maxLinks fuel (i + 1) links'
        | .error links' => artGo env target maxLinks fuel (i + 1) links'
      else links

/-- LinkCollector.collect_links_article_based over a stream of
`find_elements` results (one list per iteration; `find_elements` returns
a possibly empty list and does not raise). -/
def collect_links_article_based (env : Nat → List Article)
    (target maxLinks : Int) : List String :=
  artGo env target maxLinks MAX_SCROLLS 0 []

/-! ### Article crawler (article_crawler.py) -/

/-- One `z-photoviewer-wrapper` block: for each `.pic` descendant, the
`src` attributes of its `<img>` elements (`none`: attribute absent), plus
the block's text. -/
structure Photo where
  pics : List (List (Option String))
  text : String
deriving DecidableEq

/-- The `the-article-body` container: texts of its direct `<p>` children
in document order, and its photo blocks. -/
structure Body where
  paragraphs : List String
  photos : List Photo
deriving DecidableEq

/-- An article page as seen by the crawler.  `loadFails` models
`driver.get` raising; `title`/`body`/`summaryText` are `none` when the
corresponding element lookup raises `NoSuchElementException`. -/
structure ArticlePage where
  loadFails : Bool
  title : Option String
  body : Option Body
  summaryText : Option String
deriving DecidableEq

/-- The persisted article record (ArticleRecord in the spec). -/
structure ArticleData where
  url : String
  title : String
  content : String
  images : List (String × String)
deriving DecidableEq

/-- Python `"\n".join`. -/
def joinNL : List String → String
  | [] => ""
  | [x] => x
  | x :: rest => x ++ "\n" ++ joinNL rest

/-- ArticleCrawler.get_article_content: optional summary line (kept when
truthy) followed by the texts of the body's direct paragraph children
whose stripped text is non-empty, newline-joined in document order. -/
def get_article_content (summaryText : Option String) (body : Body) : String :=
  let summary_text := summaryText.getD ""
  let base := if summary_text ≠ "" then [summary_text] else []
  joinNL (base ++ body.paragraphs.filter (fun p => pyStrip p != ""))

/-- Image source URLs of one photo block, in document order; falsy (absent
or empty) `src` attributes are skipped. -/
def imgSrcs (ph : Photo) : List String :=
  (ph.pics.map (fun imgs =>
    imgs.filterMap (fun o =>
      match o with
      | some s => if s ≠ "" then some s else none
      | none => none))).foldr (· ++ ·) []

/-- ArticleCrawler.get_article_images: one `(joined srcs, caption)` pair
per photo block that yielded at least one source URL. -/
def get_article_images (body : Body) : List (String × String) :=
  body.photos.filterMap (fun ph =>
    let ls := imgSrcs ph
    if ls ≠ [] then some (String.intercalate ", " ls, pyStrip ph.text)
    else none)

/-- ArticleCrawler.crawl_article: a failed page load or any exception is
caught (`None`); a missing title or body is a hard per-article failure
(`None`); otherwise the record is assembled. -/
def crawl_article (page : ArticlePage) (url : String) : Option ArticleData :=
  if page.loadFails then none
  else
    match page.title with
    | none => none
    | some titleText =>
        match page.body with
        | none => none
        | some body =>
            some { url := url, title := titleText,
                   content := get_article_content page.summaryText body,
                   images := get_article_images body }

/-- Environment of a crawl run: page content per URL and the outcome of
each `save_article` call (by record and filename). -/
structure CrawlEnv where
  pages : String → ArticlePage
  saveOk : ArticleData → String → Bool

/-- Observable outcome of `crawl_from_file`: links actually visited (in
order), filenames successfully saved (in order), the `successful`
counter, the final `count`, and the number of successful extractions. -/
structure CrawlResult where
  visited : List String
  savedFiles : List String
  successful : Nat
  count : Int
  extracted : Nat
deriving DecidableEq

/-- The `for link in links` loop of ArticleCrawler.crawl_from_file:
break once `count >= max_articles`; on successful extraction save to
`f"{count}.json"` and increment `count` whether or not the save
succeeded; on failed extraction move on. -/
def crawl_go (env : CrawlEnv) (maxArticles : Int) :
    List String → Int → CrawlResult
  | [], count => ⟨[], [], 0, count, 0⟩
  | link :: rest, count =>
      if maxArticles ≤ count then ⟨[], [], 0, count, 0⟩
      else
        match crawl_article (env.pages link) link with
        | some data =>
            let fname := toString count ++ ".json"
            let savedOk := env.saveOk data fname
            let r := crawl_go env maxArticles rest (count + 1)
            ⟨link :: r.visited,
             if savedOk then fname :: r.savedFiles else r.savedFiles,
             (if savedOk then 1 else 0) + r.successful,
             r.count, r.extracted + 1⟩
        | none =>
            let r := crawl_go env maxArticles rest count
            ⟨link :: r.visited, r.savedFiles, r.successful, r.count, r.extracted⟩

/-- ArticleCrawler.crawl_from_file (the per-link loop; reading the links
file and creating directories are handled by the callees modelled
elsewhere). -/
def crawl_from_file (env : CrawlEnv) (links : List String)
    (start_count maxArticles : Int) : CrawlResult :=
  crawl_go env maxArticles links start_count

/-! ### Links-file round trip (utils.py) -/

/-- utils.save_links_to_file: write each link followed by a newline; the
result is the file's content. -/
def save_links_to_file : List String → List Char
  | [] => []
  | l :: rest => l.data ++ '\n' :: save_links_to_file rest

/-- utils.read_links_from_file: strip each line and keep the truthy
(non-empty) ones, in order. -/
def read_links_from_file (content : List Char) : List String :=
  ((splitSep '\n' content).map (fun cs => pyStrip (String.mk cs))).filter
    (fun s => s != "")

/-! ### Lemmas about the date parsers -/

theorem mkDatetime_year_bounds {y mo d h mi s : Int} {tz : Option Int}
    {dt : PyDatetime} (hmk : mkDatetime y mo d h mi s tz = some dt) :
    1 ≤ dt.year ∧ dt.year ≤ 9999 := by
  unfold mkDatetime at hmk
  split at hmk
  · rename_i hc
    injection hmk with hdt
    subst hdt
    exact ⟨hc.1, hc.2.1⟩
  · exact absurd hmk (by simp)

theorem strptimeIsoZ_year_bounds {s : String} {dt : PyDatetime}
    (h : strptimeIsoZ s = some dt) : 1 ≤ dt.year ∧ dt.year ≤ 9999 := by
  unfold strptimeIsoZ at h
  split at h
  · exact mkDatetime_year_bounds h
  · exact absurd h (by simp)

theorem strptimeDateOnly_year_bounds {s : String} {dt : PyDatetime}
    (h : strptimeDateOnly s = some dt) : 1 ≤ dt.year ∧ dt.year ≤ 9999 := by
  unfold strptimeDateOnly at h
  split at h
  · exact mkDatetime_year_bounds h
  · exact absurd h (by simp)

theorem parse_iso_date_year_bounds {s : String} {dt : PyDatetime}
    (h : parse_iso_date s = some dt) : 1 ≤ dt.year ∧ dt.year ≤ 9999 := by
  unfold parse_iso_date at h
  split at h
  · rename_i d hiso
    injection h with h
    subst h
    exact strptimeIsoZ_year_bounds hiso
  · exact strptimeDateOnly_year_bounds h

theorem parse_date_from_text_year_bounds {s : String} {dt : PyDatetime}
    (h : parse_date_from_text s = some dt) : 1 ≤ dt.year ∧ dt.year ≤ 9999 := by
  unfold parse_date_from_text at h
  split at h
  · split at h
    · exact mkDatetime_year_bounds h
    · exact absurd h (by simp)
  · exact absurd h (by simp)

theorem yearFromTime_bounds {ta : Option (Option String)} {y : Int}
    (h : yearFromTime ta = some y) : 1 ≤ y ∧ y ≤ 9999 := by
  unfold yearFromTime at h
  split at h
  · split at h
    · split at h
      · rename_i dt hds hp
        injection h with h
        subst h
        exact parse_iso_date_year_bounds hp
      · exact absurd h (by simp)
    · exact absurd h (by simp)
  · exact absurd h (by simp)

theorem yearFromDateText_bounds {dtx : Option String} {y : Int}
    (h : yearFromDateText dtx = some y) : 1 ≤ y ∧ y ≤ 9999 := by
  unfold yearFromDateText at h
  split at h
  · split at h
    · split at h
      · rename_i txt hne d hp
        injection h with h
        subst h
        exact parse_date_from_text_year_bounds hp
      · exact absurd h (by simp)
    · exact absurd h (by simp)
  · exact absurd h (by simp)

/-- The extracted year always comes from a constructed `datetime`, hence
lies in `1..9999`; in particular it is never the falsy `0`. -/
theorem check_article_year_bounds {a : Article} {y : Int}
    (h : check_article_year a = some y) : 1 ≤ y ∧ y ≤ 9999 := by
  unfold check_article_year at h
  split at h
  · rename_i y' hvt
    injection h with h
    subst h
    exact yearFromTime_bounds hvt
  · exact yearFromDateText_bounds h

theorem daysInMonth_le (y m : Int) : daysInMonth y m ≤ 31 := by
  unfold daysInMonth
  split
  · split <;> norm_num
  · split <;> norm_num

/-- A field that overflows a C `int` certainly violates the `datetime`
range checks, so the `Option`-level constructor model also rejects it. -/
theorem mkDatetime_none_of_overflow {y mo d h mi s : Int} {tz : Option Int}
    (hfit : (fitsCInt y && fitsCInt mo && fitsCInt d && fitsCInt h &&
      fitsCInt mi && fitsCInt s) = false) :
    mkDatetime y mo d h mi s tz = none := by
  have hd31 := daysInMonth_le y mo
  unfold mkDatetime
  refine if_neg (fun hcond => ?_)
  obtain ⟨c1, c2, c3, c4, c5, c6, c7, c8, c9, c10, c11, c12, _⟩ := hcond
  simp only [fitsCInt, Bool.and_eq_false_iff, decide_eq_false_iff_not,
    not_le] at hfit
  omega

theorem parse_date_from_text_body_spec (s : String) :
    parse_date_from_text_body s = .ok (parse_date_from_text s) ∨
      (parse_date_from_text_body s = .error .valueError ∧
        parse_date_from_text s = none) ∨
      (parse_date_from_text_body s = .error .overflowError ∧
        parse_date_from_text s = none) := by
  unfold parse_date_from_text_body parse_date_from_text
  cases hsp : (splitSep '/' s.data).map String.mk with
  | nil => left; rfl
  | cons p1 tl1 =>
    cases tl1 with
    | nil => left; rfl
    | cons p2 tl2 =>
      cases tl2 with
      | nil => left; rfl
      | cons p3 tl3 =>
        cases tl3 with
        | cons p4 tl4 => left; rfl
        | nil =>
          cases hy : pyInt p3 <;> cases hm : pyInt p2 <;> cases hd : pyInt p1 <;>
            simp only [pyIntExc, hy, hm, hd, Except.bind]
          all_goals try (right; left; exact ⟨rfl, trivial⟩)
          rename_i yi mi di
          by_cases hfit : (fitsCInt yi && fitsCInt mi && fitsCInt di &&
              fitsCInt 0 && fitsCInt 0 && fitsCInt 0) = true
          · cases hmk : mkDatetime yi mi di 0 0 0 none with
            | none =>
              right; left
              refine ⟨?_, rfl⟩
              show Except.bind (mkDatetimeExc yi mi di 0 0 0 none)
                (fun dt => Except.ok (some dt)) = Except.error PyExc.valueError
              unfold mkDatetimeExc
              rw [if_pos hfit, hmk]
              rfl
            | some dt =>
              left
              show Except.bind (mkDatetimeExc yi mi di 0 0 0 none)
                (fun dt => Except.ok (some dt)) = Except.ok (some dt)
              unfold mkDatetimeExc
              rw [if_pos hfit, hmk]
              rfl
          · have hfit' : (fitsCInt yi && fitsCInt mi && fitsCInt di &&
                fitsCInt 0 && fitsCInt 0 && fitsCInt 0) = false :=
              Bool.eq_false_iff.mpr hfit
            right; right
            refine ⟨?_, mkDatetime_none_of_overflow hfit'⟩
            show Except.bind (mkDatetimeExc yi mi di 0 0 0 none)
              (fun dt => Except.ok (some dt)) = Except.error PyExc.overflowError
            unfold mkDatetimeExc
            rw [if_neg hfit]
            rfl

/-- The handler turns every `ValueError` into `None`; the only exception
that can escape `parse_date_from_text` is the constructor's
`OverflowError`, and on those inputs the `Option`-level model reads
`none`. -/
theorem parse_date_from_text_exc_spec (s : String) :
    parse_date_from_text_exc s = .ok (parse_date_from_text s) ∨
      (parse_date_from_text_exc s = .error .overflowError ∧
        parse_date_from_text s = none) := by
  unfold parse_date_from_text_exc
  rcases parse_date_from_text_body_spec s with h | ⟨h1, h2⟩ | ⟨h1, h2⟩
  · left; rw [h]
  · left; rw [h1, h2]
  · right
    constructor
    · rw [h1]
    · exact h2

theorem parse_iso_date_exc_total (s : String) :
    parse_iso_date_exc s = .ok (parse_iso_date s) := by
  unfold parse_iso_date_exc parse_iso_date strptimeIsoZExc strptimeDateOnlyExc
  cases h1 : strptimeIsoZ s
  · cases h2 : strptimeDateOnly s <;> rfl
  · rfl

/-! ### Lemmas about the link collector -/

theorem setAdd_of_mem {links : List String} {l : String} (h : l ∈ links) :
    setAdd links l = links := by
  unfold setAdd
  rw [if_pos h]

theorem setAdd_nil (l : String) : setAdd [] l = [l] := rfl

theorem setAdd_length_le (links : List String) (l : String) :
    (setAdd links l).length ≤ links.length + 1 := by
  unfold setAdd
  split
  · omega
  · simp

theorem setAdd_nodup {links : List String} {l : String} (h : links.Nodup) :
    (setAdd links l).Nodup := by
  unfold setAdd
  split
  · exact h
  · rename_i hmem
    simp [List.nodup_append, h, hmem]

theorem mem_setAdd {links : List String} {l x : String} :
    x ∈ setAdd links l ↔ x ∈ links ∨ x = l := by
  unfold setAdd
  split
  · rename_i hmem
    constructor
    · exact Or.inl
    · rintro (hx | rfl)
      · exact hx
      · exact hmem
  · simp

theorem innerFor_skip {t m : Int} {a : Article} {rest : List Article}
    {links : List String} {y : Int} (hy : check_article_year a = some y)
    (h0 : y ≠ 0) (hgt : y > t) :
    innerFor t m (a :: rest) links = innerFor t m rest links := by
  simp only [innerFor, hy]
  rw [if_pos ⟨h0, hgt⟩]

theorem innerFor_stop {t m : Int} {a : Article} {rest : List Article}
    {links : List String} {y : Int} (hy : check_article_year a = some y)
    (h0 : y ≠ 0) (hlt : y < t) :
    innerFor t m (a :: rest) links = .error links := by
  simp only [innerFor, hy]
  rw [if_neg (by omega), if_neg (by omega), if_pos ⟨h0, hlt⟩]

theorem innerFor_add {t m : Int} {a : Article} {rest : List Article}
    {links : List String} {l : String} (hy : check_article_year a = some t)
    (h0 : t ≠ 0) (hth : a.thumbHref = some (some l)) (hl : l ≠ "")
    (hlen : ¬ m ≤ ((setAdd links l).length : Int)) :
    innerFor t m (a :: rest) links = innerFor t m rest (setAdd links l) := by
  simp only [innerFor, hy, hth]
  rw [if_neg (by omega), if_pos ⟨h0, trivial⟩, if_pos hl, if_neg hlen]

/-- Invariant carried by a loop-body result: inside the loop the
collection stays strictly below `maxLinks`; an early return may reach at
most `maxLinks`. -/
def resOk (m : Int) : Except (List String) (List String) → Prop
  | .ok l => l.Nodup ∧ (l.length : Int) < m
  | .error l => l.Nodup ∧ (l.length : Int) ≤ m

theorem innerFor_inv (t m : Int) : ∀ (arts : List Article) (links : List String),
    links.Nodup → (links.length : Int) < m →
    resOk m (innerFor t m arts links) := by
  intro arts
  induction arts with
  | nil => intro links hnd hlen; exact ⟨hnd, hlen⟩
  | cons a rest ih =>
    intro links hnd hlen
    cases hy : check_article_year a with
    | none =>
      simp only [innerFor, hy]
      rw [if_neg (by omega)]
      exact ih links hnd hlen
    | some y =>
      by_cases h1 : y ≠ 0 ∧ y > t
      · simp only [innerFor, hy]
        rw [if_pos h1]
        exact ih links hnd hlen
      · by_cases h2 : y ≠ 0 ∧ y = t
        · cases hth : a.thumbHref with
          | none =>
            simp only [innerFor, hy, hth]
            rw [if_neg h1, if_pos h2]
            exact ih links hnd hlen
          | some linkAttr =>
            cases linkAttr with
            | none =>
              simp only [innerFor, hy, hth]
              rw [if_neg h1, if_pos h2]
              by_cases h4 : m ≤ (links.length : Int)
              · rw [if_pos h4]; exact ⟨hnd, hlen.le⟩
              · rw [if_neg h4]; exact ih links hnd hlen
            | some l =>
              simp only [innerFor, hy, hth]
              rw [if_neg h1, if_pos h2]
              by_cases h3 : l ≠ ""
              · rw [if_pos h3]
                by_cases h4 : m ≤ ((setAdd links l).length : Int)
                · rw [if_pos h4]
                  refine ⟨setAdd_nodup hnd, ?_⟩
                  have := setAdd_length_le links l
                  omega
                · rw [if_neg h4]
                  exact ih _ (setAdd_nodup hnd) (by omega)
              · rw [if_neg h3]
                by_cases h4 : m ≤ (links.length : Int)
                · rw [if_pos h4]; exact ⟨hnd, hlen.le⟩
                · rw [if_neg h4]; exact ih links hnd hlen
        · simp only [innerFor, hy]
          rw [if_neg h1, if_neg h2]
          by_cases h3 : y ≠ 0 ∧ y < t
          · rw [if_pos h3]
            exact ⟨hnd, hlen.le⟩
          · rw [if_neg h3, if_neg (by omega)]
            exact ih links hnd hlen

theorem passSnap_inv {t m : Int} {snap : Snapshot} {links : List String}
    (hnd : links.Nodup) (hlen : (links.length : Int) < m) :
    resOk m (passSnap t m snap links) := by
  unfold passSnap
  cases snap.articles with
  | none => exact ⟨hnd, hlen⟩
  | some arts => exact innerFor_inv t m arts.reverse links hnd hlen

theorem scrollGo_inv (env : Nat → Snapshot) (t m : Int) :
    ∀ (fuel i scrolls : Nat) (lastH : Int) (links : List String),
    links.Nodup → (links.length : Int) < m →
    (scrollGo env t m fuel i scrolls lastH links).1.Nodup ∧
      ((scrollGo env t m fuel i scrolls lastH links).1.length : Int) ≤ m := by
  intro fuel
  induction fuel with
  | zero => intro i scrolls lastH links hnd hlen; exact ⟨hnd, hlen.le⟩
  | succ fuel ih =>
    intro i scrolls lastH links hnd hlen
    have hres := @passSnap_inv t m (env i) links hnd hlen
    cases hp : passSnap t m (env i) links with
    | error links' =>
      rw [hp] at hres
      simp only [scrollGo, hp]
      exact hres
    | ok links' =>
      rw [hp] at hres
      obtain ⟨hnd', hlen'⟩ := hres
      simp only [scrollGo, hp]
      by_cases hh : (env i).newHeight = lastH
      · rw [if_pos hh]
        exact ⟨hnd', hlen'.le⟩
      · rw [if_neg hh]
        exact ih (i + 1) (scrolls + 1) (env i).newHeight links' hnd' hlen'

theorem scrollGo_scrolls_le (env : Nat → Snapshot) (t m : Int) :
    ∀ (fuel i scrolls : Nat) (lastH : Int) (links : List String),
    (scrollGo env t m fuel i scrolls lastH links).2 ≤ scrolls + fuel := by
  intro fuel
  induction fuel with
  | zero => intro i scrolls lastH links; simp [scrollGo]
  | succ fuel ih =>
    intro i scrolls lastH links
    cases hp : passSnap t m (env i) links with
    | error links' =>
      simp only [scrollGo, hp]
      omega
    | ok links' =>
      simp only [scrollGo, hp]
      by_cases hh : (env i).newHeight = lastH
      · rw [if_pos hh]
        dsimp only
        omega
      · rw [if_neg hh]
        have := ih (i + 1) (scrolls + 1) (env i).newHeight links'
        omega

theorem scrollGo_stable_exit (env : Nat → Snapshot) (t m : Int)
    (fuel i scrolls : Nat) (lastH : Int) (links L : List String)
    (hp : passSnap t m (env i) links = .ok L)
    (hh : (env i).newHeight = lastH) :
    scrollGo env t m (fuel + 1) i scrolls lastH links = (L, scrolls + 1) := by
  simp only [scrollGo, hp]
  rw [if_pos hh]

theorem innerForArt_inv (t m : Int) : ∀ (arts : List Article) (links : List String),
    links.Nodup → (links.length : Int) < m →
    resOk m (innerForArt t m arts links) := by
  intro arts
  induction arts with
  | nil => intro links hnd hlen; exact ⟨hnd, hlen⟩
  | cons a rest ih =>
    intro links hnd hlen
    by_cases hy : check_article_year a = some t
    · cases hth : a.anchorHref with
      | none =>
        simp only [innerForArt, hth]
        rw [if_pos hy]
        exact ih links hnd hlen
      | some linkAttr =>
        cases linkAttr with
        | none =>
          simp only [innerForArt, hth]
          rw [if_pos hy]
          by_cases h4 : m ≤ (links.length : Int)
          · rw [if_pos h4]; exact ⟨hnd, hlen.le⟩
          · rw [if_neg h4]; exact ih links hnd hlen
        | some l =>
          simp only [innerForArt, hth]
          rw [if_pos hy]
          by_cases h3 : l ≠ "" ∧ l ∉ links
          · rw [if_pos h3]
            have hnd' : (links ++ [l]).Nodup := by
              simp [List.nodup_append, hnd, h3.2]
            by_cases h4 : m ≤ ((links ++ [l]).length : Int)
            · rw [if_pos h4]
              refine ⟨hnd', ?_⟩
              simp only [List.length_append, List.length_cons, List.length_nil]
              omega
            · rw [if_neg h4]
              exact ih _ hnd' (by omega)
          · rw [if_neg h3]
            by_cases h4 : m ≤ (links.length : Int)
            · rw [if_pos h4]; exact ⟨hnd, hlen.le⟩
            · rw [if_neg h4]; exact ih links hnd hlen
    · simp only [innerForArt]
      rw [if_neg hy]
      by_cases h4 : m ≤ (links.length : Int)
      · rw [if_pos h4]; exact ⟨hnd, hlen.le⟩
      · rw [if_neg h4]; exact ih links hnd hlen

theorem artGo_inv (env : Nat → List Article) (t m : Int) :
    ∀ (fuel i : Nat) (links : List String),
    links.Nodup → (links.length : Int) ≤ m →
    (artGo env t m fuel i links).Nodup ∧
      ((artGo env t m fuel i links).length : Int) ≤ m := by
  intro fuel
  induction fuel with
  | zero => intro i links hnd hlen; exact ⟨hnd, hlen⟩
  | succ fuel ih =>
    intro i links hnd hlen
    by_cases hcond : (links.length : Int) < m
    · have hres := innerForArt_inv t m (env i) links hnd hcond
      cases hp : innerForArt t m (env i) links with
      | ok links' =>
        rw [hp] at hres
        obtain ⟨hnd', hlen'⟩ := hres
        simp only [artGo, hp]
        rw [if_pos hcond]
        exact ih (i + 1) links' hnd' hlen'.le
      | error links' =>
        rw [hp] at hres
        obtain ⟨hnd', hlen'⟩ := hres
        simp only [artGo, hp]
        rw [if_pos hcond]
        exact ih (i + 1) links' hnd' hlen'
    · simp only [artGo]
      rw [if_neg hcond]
      exact ⟨hnd, hlen⟩

/-! ### Lemmas about the article crawler -/

theorem crawl_go_break {env : CrawlEnv} {maxA : Int} {links : List String}
    {count : Int} (h : maxA ≤ count) :
    crawl_go env maxA links count = ⟨[], [], 0, count, 0⟩ := by
  cases links with
  | nil => rfl
  | cons l rest =>
    simp only [crawl_go]
    rw [if_pos h]

theorem crawl_go_step_some {env : CrawlEnv} {maxA : Int} {l : String}
    {rest : List String} {count : Int} {data : ArticleData}
    (hc : count < maxA) (hd : crawl_article (env.pages l) l = some data) :
    crawl_go env maxA (l :: rest) count =
      ⟨l :: (crawl_go env maxA rest (count + 1)).visited,
       if env.saveOk data (toString count ++ ".json") then
         (toString count ++ ".json") :: (crawl_go env maxA rest (count + 1)).savedFiles
       else (crawl_go env maxA rest (count + 1)).savedFiles,
       (if env.saveOk data (toString count ++ ".json") then 1 else 0) +
         (crawl_go env maxA rest (count + 1)).successful,
       (crawl_go env maxA rest (count + 1)).count,
       (crawl_go env maxA rest (count + 1)).extracted + 1⟩ := by
  simp only [crawl_go, hd]
  rw [if_neg (by omega)]

theorem crawl_go_step_none {env : CrawlEnv} {maxA : Int} {l : String}
    {rest : List String} {count : Int}
    (hc : count < maxA) (hd : crawl_article (env.pages l) l = none) :
    crawl_go env maxA (l :: rest) count =
      ⟨l :: (crawl_go env maxA rest count).visited,
       (crawl_go env maxA rest count).savedFiles,
       (crawl_go env maxA rest count).successful,
       (crawl_go env maxA rest count).count,
       (crawl_go env maxA rest count).extracted⟩ := by
  simp only [crawl_go, hd]
  rw [if_neg (by omega)]

theorem crawl_go_extracted_le (env : CrawlEnv) (maxA : Int) :
    ∀ (links : List String) (count : Int),
    (crawl_go env maxA links count).extracted ≤ (maxA - count).toNat := by
  intro links
  induction links with
  | nil => intro count; simp [crawl_go]
  | cons l rest ih =>
    intro count
    by_cases hc : maxA ≤ count
    · rw [crawl_go_break hc]
      simp
    · cases hd : crawl_article (env.pages l) l with
      | some data =>
        rw [crawl_go_step_some (by omega) hd]
        dsimp only
        have := ih (count + 1)
        omega
      | none =>
        rw [crawl_go_step_none (by omega) hd]
        exact ih count

/-! ### Lemmas about the links-file round trip -/

theorem splitSep_append {sep : Char} {l : List Char} (h : sep ∉ l)
    (rest : List Char) :
    splitSep sep (l ++ sep :: rest) = l :: splitSep sep rest := by
  induction l with
  | nil => simp [splitSep]
  | cons c cs ih =>
    have hc : c ≠ sep := fun hcn => h (hcn ▸ List.mem_cons_self c cs)
    have hcs : sep ∉ cs := fun hmem => h (List.mem_cons_of_mem c hmem)
    simp only [List.cons_append, splitSep]
    rw [if_neg hc, List.append_eq, ih hcs]

theorem read_save_roundtrip :
    ∀ links : List String,
    (∀ l ∈ links, l ≠ "" ∧ pyStrip l = l ∧ '\n' ∉ l.data) →
    read_links_from_file (save_links_to_file links) = links := by
  intro links
  induction links with
  | nil => intro _; rfl
  | cons l rest ih =>
    intro h
    obtain ⟨hne, hstrip, hnl⟩ := h l (List.mem_cons_self l rest)
    have hrest := fun x hx => h x (List.mem_cons_of_mem l hx)
    show read_links_from_file (l.data ++ '\n' :: save_links_to_file rest) = l :: rest
    unfold read_links_from_file
    rw [splitSep_append hnl]
    simp only [List.map_cons]
    have hmk : pyStrip (String.mk l.data) = l := hstrip
    rw [hmk]
    rw [List.filter_cons_of_pos (by simpa using hne)]
    have := ih hrest
    unfold read_links_from_file at this
    rw [this]

/-! ### Claim theorems -/

/-- C3 counterexample: `parse_date_from_text "1/1/10000000000"` reaches
the `datetime` constructor with a year outside the C `int` range; the
constructor raises `OverflowError`, which the
`except (ValueError, IndexError)` handler does not catch, so the
exception escapes instead of the parser returning `None`. -/
theorem parse_date_from_text_overflow_escapes :
    parse_date_from_text_exc "1/1/10000000000" = .error .overflowError ∧
    parse_date_from_text_exc "1/1/10000000000" ≠ .ok none := by
  constructor
  · rfl
  · intro h
    rw [show parse_date_from_text_exc "1/1/10000000000" =
      Except.error PyExc.overflowError from rfl] at h
    cases h

/-- C3 (amended): parsing `"2024-01-15T10:00:00+0700"` with
`parse_iso_date` yields a date whose year is 2024; parsing `"15/01/2024"`
with `parse_date_from_text` yields a date whose year is 2024; on every
input `parse_iso_date` returns a result (`none` for a string matching
neither accepted format) rather than raising; and `parse_date_from_text`
likewise returns `None` rather than raising on every non-matching input,
except that a numeric field outside the C `int` range makes the
`datetime` constructor raise `OverflowError`, which escapes the
`except (ValueError, IndexError)` handler. -/
theorem date_parsers_examples_and_exception_coverage :
    (parse_iso_date "2024-01-15T10:00:00+0700").map PyDatetime.year = some 2024 ∧
    (parse_date_from_text "15/01/2024").map PyDatetime.year = some 2024 ∧
    parse_iso_date "not a date" = none ∧
    parse_date_from_text "2024-01-15" = none ∧
    (∀ s, parse_iso_date_exc s = .ok (parse_iso_date s)) ∧
    (∀ s, parse_date_from_text_exc s = .ok (parse_date_from_text s) ∨
       (parse_date_from_text_exc s = .error .overflowError ∧
         parse_date_from_text s = none)) := by
  refine ⟨?_, ?_, ?_, ?_, parse_iso_date_exc_total, parse_date_from_text_exc_spec⟩
  · decide
  · decide
  · decide
  · decide

/-- C5: for every list of URLs that are non-blank, already stripped and
free of embedded newlines, saving with `save_links_to_file` and reading
back with `read_links_from_file` returns exactly the original list in
order (the reader drops blank lines, but none are produced here). -/
theorem links_file_roundtrip (links : List String)
    (h : ∀ l ∈ links, l ≠ "" ∧ pyStrip l = l ∧ '\n' ∉ l.data) :
    read_links_from_file (save_links_to_file links) = links :=
  read_save_roundtrip links h

theorem links_file_roundtrip_witness :
    read_links_from_file (save_links_to_file
      ["https://znews.vn/a.html", "https://znews.vn/b.html"]) =
      ["https://znews.vn/a.html", "https://znews.vn/b.html"] :=
  links_file_roundtrip _ (by decide)

/-- C4: with a non-empty summary and a body whose direct paragraph
children are two non-empty paragraphs, `get_article_content` returns the
summary line followed by the two paragraph texts, newline-joined, in
document order; a whitespace-only direct paragraph child is omitted. -/
theorem article_content_summary_then_paragraphs
    (s p1 p2 w : String) (photos : List Photo)
    (hs : s ≠ "") (h1 : pyStrip p1 ≠ "") (h2 : pyStrip p2 ≠ "")
    (hw : pyStrip w = "") :
    get_article_content (some s) ⟨[p1, p2], photos⟩ =
      s ++ "\n" ++ p1 ++ "\n" ++ p2 ∧
    get_article_content (some s) ⟨[p1, w, p2], photos⟩ =
      s ++ "\n" ++ p1 ++ "\n" ++ p2 := by
  have hb1 : (pyStrip p1 != "") = true := by simpa using h1
  have hb2 : (pyStrip p2 != "") = true := by simpa using h2
  have hbw : (pyStrip w != "") = false := by simpa using hw
  constructor <;>
    simp [get_article_content, joinNL, hs, hb1, hb2, hbw,
      String.append_assoc]

theorem article_content_summary_then_paragraphs_witness :
    get_article_content (some "S") ⟨["p1", " ", "p2"], []⟩ = "S\np1\np2" ∧
    get_article_content (some "S") ⟨["p1", "p2"], []⟩ = "S\np1\np2" := by
  have h := article_content_summary_then_paragraphs "S" "p1" "p2" " " []
    (by decide) (by decide) (by decide) (by decide)
  exact ⟨h.2, h.1⟩

/-- C2: crawling a links file of 5 URLs with `max_articles = 3` and the
default `start_count = 0`, when every extraction and every save succeeds,
visits exactly the first three links, saves exactly the three files
`0.json`, `1.json`, `2.json`, and stops with the remaining two links
unvisited. -/
theorem crawl_from_file_stops_at_max_articles
    (env : CrawlEnv) (l1 l2 l3 l4 l5 : String)
    (hcrawl : ∀ l, (crawl_article (env.pages l) l).isSome)
    (hsave : ∀ d f, env.saveOk d f = true) :
    crawl_from_file env [l1, l2, l3, l4, l5] 0 3 =
      ⟨[l1, l2, l3], ["0.json", "1.json", "2.json"], 3, 3, 3⟩ := by
  obtain ⟨d1, hd1⟩ := Option.isSome_iff_exists.mp (hcrawl l1)
  obtain ⟨d2, hd2⟩ := Option.isSome_iff_exists.mp (hcrawl l2)
  obtain ⟨d3, hd3⟩ := Option.isSome_iff_exists.mp (hcrawl l3)
  unfold crawl_from_file
  rw [crawl_go_step_some (by norm_num) hd1]
  rw [show ((0 : Int) + 1) = 1 from rfl]
  rw [crawl_go_step_some (by norm_num) hd2]
  rw [show ((1 : Int) + 1) = 2 from rfl]
  rw [crawl_go_step_some (by norm_num) hd3]
  rw [show ((2 : Int) + 1) = 3 from rfl]
  rw [crawl_go_break (by norm_num)]
  rw [hsave d1 _, hsave d2 _, hsave d3 _]
  simp only [if_true]
  rfl

theorem crawl_from_file_stops_at_max_articles_witness :
    crawl_from_file
      ⟨fun _ => ⟨false, some "t", some ⟨["p"], []⟩, some "sum"⟩, fun _ _ => true⟩
      ["a", "b", "c", "d", "e"] 0 3 =
      ⟨["a", "b", "c"], ["0.json", "1.json", "2.json"], 3, 3, 3⟩ :=
  crawl_from_file_stops_at_max_articles _ "a" "b" "c" "d" "e"
    (fun _ => rfl) (fun _ _ => rfl)

/-- C10: `crawl_from_file` compares the absolute index (`start_count` plus
articles extracted so far) against `max_articles`: with `start_count ≥
max_articles` it visits no link at all; in general at most
`max_articles - start_count` articles are extracted; and the index
advances on every successful extraction even when saving the file
fails. -/
theorem crawl_from_file_absolute_index :
    (∀ (env : CrawlEnv) (links : List String) (start maxA : Int),
       maxA ≤ start →
       crawl_from_file env links start maxA = ⟨[], [], 0, start, 0⟩) ∧
    (∀ (env : CrawlEnv) (links : List String) (start maxA : Int),
       (crawl_from_file env links start maxA).extracted ≤
         (maxA - start).toNat) ∧
    (∀ (env : CrawlEnv) (l : String) (rest : List String)
       (start maxA : Int) (data : ArticleData),
       start < maxA →
       crawl_article (env.pages l) l = some data →
       env.saveOk data (toString start ++ ".json") = false →
       crawl_from_file env (l :: rest) start maxA =
         ⟨l :: (crawl_from_file env rest (start + 1) maxA).visited,
          (crawl_from_file env rest (start + 1) maxA).savedFiles,
          (crawl_from_file env rest (start + 1) maxA).successful,
          (crawl_from_file env rest (start + 1) maxA).count,
          (crawl_from_file env rest (start + 1) maxA).extracted + 1⟩) := by
  refine ⟨?_, ?_, ?_⟩
  · intro env links start maxA h
    exact crawl_go_break h
  · intro env links start maxA
    exact crawl_go_extracted_le env maxA links start
  · intro env l rest start maxA data hc hd hsv
    unfold crawl_from_file
    rw [crawl_go_step_some hc hd, hsv]
    simp

theorem crawl_from_file_absolute_index_witness :
    crawl_from_file
      ⟨fun _ => ⟨false, some "t", some ⟨[], []⟩, none⟩, fun _ _ => false⟩
      ["a", "b"] 5 3 = ⟨[], [], 0, 5, 0⟩ ∧
    (crawl_from_file
      ⟨fun _ => ⟨false, some "t", some ⟨[], []⟩, none⟩, fun _ _ => false⟩
      ["a", "b"] 0 3).extracted ≤ ((3 : Int) - 0).toNat ∧
    crawl_from_file
      ⟨fun _ => ⟨false, some "t", some ⟨[], []⟩, none⟩, fun _ _ => false⟩
      ["a"] 0 3 =
      ⟨["a"], [], 0, 1, 1⟩ := by
  refine ⟨crawl_from_file_absolute_index.1 _ _ 5 3 (by norm_num),
          crawl_from_file_absolute_index.2.1 _ _ 0 3, ?_⟩
  rw [crawl_from_file_absolute_index.2.2
    ⟨fun _ => ⟨false, some "t", some ⟨[], []⟩, none⟩, fun _ _ => false⟩
    "a" [] 0 3 ⟨"a", "t", "", []⟩ (by norm_num) rfl rfl]
  rfl

/-- C7: a failed page load, a missing title element or a missing body
container makes `crawl_article` return `None` instead of raising; and a
link whose extraction fails is skipped by `crawl_from_file`, which
continues with the remaining links instead of aborting the batch. -/
theorem crawl_article_failures_skip_not_abort :
    (∀ (page : ArticlePage) (url : String),
       page.title = none → crawl_article page url = none) ∧
    (∀ (page : ArticlePage) (url : String),
       page.body = none → crawl_article page url = none) ∧
    (∀ (page : ArticlePage) (url : String),
       page.loadFails = true → crawl_article page url = none) ∧
    (∀ (env : CrawlEnv) (maxA : Int) (l : String) (rest : List String)
       (count : Int),
       count < maxA →
       crawl_article (env.pages l) l = none →
       crawl_go env maxA (l :: rest) count =
         ⟨l :: (crawl_go env maxA rest count).visited,
          (crawl_go env maxA rest count).savedFiles,
          (crawl_go env maxA rest count).successful,
          (crawl_go env maxA rest count).count,
          (crawl_go env maxA rest count).extracted⟩) := by
  refine ⟨?_, ?_, ?_, ?_⟩
  · intro page url ht
    unfold crawl_article
    cases hl : page.loadFails with
    | true => rw [if_pos rfl]
    | false =>
      rw [if_neg (by simp)]
      rw [ht]
  · intro page url hb
    unfold crawl_article
    cases hl : page.loadFails with
    | true => rw [if_pos rfl]
    | false =>
      rw [if_neg (by simp)]
      cases ht : page.title with
      | none => rfl
      | some titleText =>
        rw [hb]
  · intro page url hl
    unfold crawl_article
    rw [hl, if_pos rfl]
  · intro env maxA l rest count hc hd
    exact crawl_go_step_none hc hd

theorem crawl_article_failures_skip_not_abort_witness :
    crawl_article ⟨false, none, some ⟨[], []⟩, none⟩ "u" = none ∧
    crawl_article ⟨false, some "t", none, none⟩ "u" = none ∧
    crawl_article ⟨true, some "t", some ⟨[], []⟩, none⟩ "u" = none ∧
    crawl_go ⟨fun _ => ⟨false, none, none, none⟩, fun _ _ => true⟩ 3
      ["a"] 0 =
      ⟨"a" :: (crawl_go ⟨fun _ => ⟨false, none, none, none⟩, fun _ _ => true⟩ 3
         [] 0).visited,
       (crawl_go ⟨fun _ => ⟨false, none, none, none⟩, fun _ _ => true⟩ 3
         [] 0).savedFiles,
       (crawl_go ⟨fun _ => ⟨false, none, none, none⟩, fun _ _ => true⟩ 3
         [] 0).successful,
       (crawl_go ⟨fun _ => ⟨false, none, none, none⟩, fun _ _ => true⟩ 3
         [] 0).count,
       (crawl_go ⟨fun _ => ⟨false, none, none, none⟩, fun _ _ => true⟩ 3
         [] 0).extracted⟩ :=
  ⟨crawl_article_failures_skip_not_abort.1 _ "u" rfl,
   crawl_article_failures_skip_not_abort.2.1 _ "u" rfl,
   crawl_article_failures_skip_not_abort.2.2.1 _ "u" rfl,
   crawl_article_failures_skip_not_abort.2.2.2 _ 3 "a" [] 0 (by norm_num) rfl⟩

theorem yearFromDateText_eq (txt : String) :
    yearFromDateText (some txt) =
      (parse_date_from_text (pyStrip txt)).map PyDatetime.year := by
  simp only [yearFromDateText]
  by_cases h : pyStrip txt = ""
  · rw [h, if_neg (by simp)]
    rfl
  · rw [if_pos h]
    cases hp : parse_date_from_text (pyStrip txt) with
    | none => rfl
    | some d => rfl

theorem yearFromTime_none_cases {ta : Option (Option String)}
    (h : ta = none ∨ ta = some none ∨
      ∃ s, ta = some (some s) ∧ (s = "" ∨ parse_iso_date s = none)) :
    yearFromTime ta = none := by
  rcases h with rfl | rfl | ⟨s, rfl, hs | hp⟩
  · rfl
  · rfl
  · subst hs; rfl
  · simp only [yearFromTime]
    by_cases hse : s = ""
    · rw [if_neg (by simp [hse])]
    · rw [if_pos hse, hp]

/-- C9: `check_article_year` prefers the structured timestamp: when the
`<time>` element carries a parseable `datetime` attribute the year comes
from it and the free-text `.date` field is never consulted; when the
attribute is absent, empty or unparseable it falls back to the stripped
`DD/MM/YYYY` text; and the result is `None` only when both strategies
fail. -/
theorem check_article_year_prefers_time_attr :
    (∀ (attr : String) (dt : PyDatetime) (dtext : Option String)
       (th ah : Option (Option String)),
       parse_iso_date attr = some dt →
       check_article_year ⟨some (some attr), dtext, th, ah⟩ = some dt.year) ∧
    (∀ (ta : Option (Option String)) (dtext : String)
       (th ah : Option (Option String)),
       (ta = none ∨ ta = some none ∨
         ∃ s, ta = some (some s) ∧ (s = "" ∨ parse_iso_date s = none)) →
       check_article_year ⟨ta, some dtext, th, ah⟩ =
         (parse_date_from_text (pyStrip dtext)).map PyDatetime.year) ∧
    (∀ a : Article, check_article_year a = none →
       yearFromTime a.timeAttr = none ∧ yearFromDateText a.dateText = none) := by
  refine ⟨?_, ?_, ?_⟩
  · intro attr dt dtext th ah hp
    have hne : attr ≠ "" := by
      rintro rfl
      rw [show parse_iso_date "" = none from rfl] at hp
      cases hp
    have hvt : yearFromTime (some (some attr)) = some dt.year := by
      simp only [yearFromTime]
      rw [if_pos hne, hp]
    show (match yearFromTime (some (some attr)) with
          | some y => some y
          | none => yearFromDateText dtext) = some dt.year
    rw [hvt]
  · intro ta dtext th ah hcases
    have h0 : yearFromTime ta = none := yearFromTime_none_cases hcases
    show (match yearFromTime ta with
          | some y => some y
          | none => yearFromDateText (some dtext)) =
        (parse_date_from_text (pyStrip dtext)).map PyDatetime.year
    rw [h0]
    exact yearFromDateText_eq dtext
  · intro a h
    cases hvt : yearFromTime a.timeAttr with
    | some y =>
      simp only [check_article_year, hvt] at h
      cases h
    | none =>
      simp only [check_article_year, hvt] at h
      exact ⟨rfl, h⟩

theorem check_article_year_prefers_time_attr_witness :
    check_article_year
      ⟨some (some "2025-05-01T00:00:00+0700"), some "15/01/2024", none, none⟩ =
      some 2025 ∧
    check_article_year ⟨some (some ""), some "15/01/2024", none, none⟩ =
      (parse_date_from_text (pyStrip "15/01/2024")).map PyDatetime.year ∧
    (yearFromTime (Article.mk none none none none).timeAttr = none ∧
     yearFromDateText (Article.mk none none none none).dateText = none) :=
  ⟨check_article_year_prefers_time_attr.1 "2025-05-01T00:00:00+0700"
      ⟨2025, 5, 1, 0, 0, 0, some 25200⟩ (some "15/01/2024") none none (by decide),
   check_article_year_prefers_time_attr.2.1 (some (some "")) "15/01/2024"
      none none (Or.inr (Or.inr ⟨"", rfl, Or.inl rfl⟩)),
   check_article_year_prefers_time_attr.2.2 ⟨none, none, none, none⟩ rfl⟩

/-- C1: with the first snapshot's items reading, in processing order
(the code iterates the item list reversed), years `Y+1, Y, Y, Y-1, ...`,
`collect_links_scroll_based` (at its default `max_links = 200`) skips the
`Y+1` item, collects the links of the two `Y` items, and returns at the
first `Y-1` item without scrolling: the result holds exactly the two `Y`
links, whatever the remaining items and later snapshots contain. -/
theorem scroll_collect_stops_at_first_older_year
    (Y : Int) (a1 a2 a3 a4 : Article) (rest : List Article)
    (env : Nat → Snapshot) (initH : Int) (arts : List Article) (l2 l3 : String)
    (henv : (env 0).articles = some arts)
    (harts : arts.reverse = a1 :: a2 :: a3 :: a4 :: rest)
    (h1 : check_article_year a1 = some (Y + 1))
    (h2 : check_article_year a2 = some Y)
    (h3 : check_article_year a3 = some Y)
    (h4 : check_article_year a4 = some (Y - 1))
    (ht2 : a2.thumbHref = some (some l2)) (hl2 : l2 ≠ "")
    (ht3 : a3.thumbHref = some (some l3)) (hl3 : l3 ≠ "") :
    (∀ x, x ∈ (collect_links_scroll_based env initH Y 200).1 ↔
      (x = l2 ∨ x = l3)) ∧
    (collect_links_scroll_based env initH Y 200).2 = 0 := by
  have hb4 := check_article_year_bounds h4
  have hlen1 : ¬ (200 : Int) ≤ ((setAdd [] l2).length : Int) := by
    rw [setAdd_nil]
    norm_num
  have hlen2 : ¬ (200 : Int) ≤ ((setAdd (setAdd [] l2) l3).length : Int) := by
    have hle := setAdd_length_le (setAdd [] l2) l3
    rw [setAdd_nil] at hle ⊢
    simp only [List.length_cons, List.length_nil] at hle
    omega
  have hstep : passSnap Y 200 (env 0) [] =
      .error (setAdd (setAdd [] l2) l3) := by
    unfold passSnap
    rw [henv]
    show innerFor Y 200 arts.reverse [] = _
    rw [harts]
    rw [innerFor_skip h1 (by omega) (by omega)]
    rw [innerFor_add h2 (by omega) ht2 hl2 hlen1]
    rw [innerFor_add h3 (by omega) ht3 hl3 hlen2]
    rw [innerFor_stop h4 (by omega) (by omega)]
  have hcoll : collect_links_scroll_based env initH Y 200 =
      (setAdd (setAdd [] l2) l3, 0) := by
    show scrollGo env Y 200 (49 + 1) 0 0 initH [] = _
    simp only [scrollGo, hstep]
  refine ⟨?_, by rw [hcoll]⟩
  intro x
  rw [hcoll]
  simp only [mem_setAdd, List.not_mem_nil, false_or]

theorem scroll_collect_stops_at_first_older_year_witness :
    (∀ x, x ∈ (collect_links_scroll_based
      (fun _ => ⟨some [⟨none, some "31/12/2023", some (some "u4"), none⟩,
                       ⟨none, some "16/01/2024", some (some "u3"), none⟩,
                       ⟨none, some "15/01/2024", some (some "u2"), none⟩,
                       ⟨some (some "2025-05-01T00:00:00+0700"), none,
                        some (some "uA"), none⟩], 100⟩)
      100 2024 200).1 ↔ (x = "u2" ∨ x = "u3")) ∧
    (collect_links_scroll_based
      (fun _ => ⟨some [⟨none, some "31/12/2023", some (some "u4"), none⟩,
                       ⟨none, some "16/01/2024", some (some "u3"), none⟩,
                       ⟨none, some "15/01/2024", some (some "u2"), none⟩,
                       ⟨some (some "2025-05-01T00:00:00+0700"), none,
                        some (some "uA"), none⟩], 100⟩)
      100 2024 200).2 = 0 :=
  scroll_collect_stops_at_first_older_year 2024
    ⟨some (some "2025-05-01T00:00:00+0700"), none, some (some "uA"), none⟩
    ⟨none, some "15/01/2024", some (some "u2"), none⟩
    ⟨none, some "16/01/2024", some (some "u3"), none⟩
    ⟨none, some "31/12/2023", some (some "u4"), none⟩
    [] _ 100 _ "u2" "u3" rfl (by decide) (by decide) (by decide) (by decide)
    (by decide) rfl (by decide) rfl (by decide)

/-- C6 (amended): the scroll loop always terminates, performing at most
`MAX_SCROLLS` scroll commands; and it exits as soon as the height measured
after a scroll is unchanged, i.e. equal to the previous measurement (a
decrease does not trigger the exit, see the counterexample). -/
theorem scroll_loop_bounded_and_stable_exit :
    (∀ (env : Nat → Snapshot) (initH t m : Int),
       (collect_links_scroll_based env initH t m).2 ≤ MAX_SCROLLS) ∧
    (∀ (env : Nat → Snapshot) (t m : Int) (fuel i scrolls : Nat)
       (lastH : Int) (links L : List String),
       passSnap t m (env i) links = .ok L →
       (env i).newHeight = lastH →
       scrollGo env t m (fuel + 1) i scrolls lastH links = (L, scrolls + 1)) := by
  constructor
  · intro env initH t m
    have h := scrollGo_scrolls_le env t m MAX_SCROLLS 0 0 initH []
    simpa [collect_links_scroll_based] using h
  · intro env t m fuel i scrolls lastH links L hp hh
    exact scrollGo_stable_exit env t m fuel i scrolls lastH links L hp hh

theorem scroll_loop_bounded_and_stable_exit_witness :
    (collect_links_scroll_based (fun _ => ⟨none, 100⟩) 100 2024 200).2 ≤
      MAX_SCROLLS ∧
    scrollGo (fun _ => ⟨none, (100 : Int)⟩) 2024 200 (0 + 1) 0 0 100 [] =
      ([], 0 + 1) :=
  ⟨scroll_loop_bounded_and_stable_exit.1 (fun _ => ⟨none, 100⟩) 100 2024 200,
   scroll_loop_bounded_and_stable_exit.2 (fun _ => ⟨none, (100 : Int)⟩)
     2024 200 0 0 0 100 [] [] rfl rfl⟩

/-- C6 counterexample: with measured heights 99, 98, 97, ... after the
initial measurement of 100, the height stops increasing immediately, yet
the loop does not exit there: every height differs from the previous one,
so all `MAX_SCROLLS = 50` scrolls are performed instead of stopping after
the first one as the claim's "stops increasing" condition predicts. -/
theorem scroll_loop_ignores_height_decrease :
    (collect_links_scroll_based (fun i => ⟨none, 99 - (i : Int)⟩)
      100 2024 200).2 = 50 ∧
    (collect_links_scroll_based (fun i => ⟨none, 99 - (i : Int)⟩)
      100 2024 200).2 ≠ 1 := by
  constructor
  · decide
  · decide

/-- C8 (amended): adding an already-present URL leaves the collection
unchanged, both collectors return collections without duplicate URLs,
and, provided `max_links ≥ 1`, their size never exceeds `max_links`
(for `max_links = 0` the scroll-based collector can return one link, see
the counterexample). -/
theorem link_collections_dedup_and_bounded :
    (∀ (links : List String) (l : String), l ∈ links →
       setAdd links l = links) ∧
    (∀ (env : Nat → Snapshot) (initH t m : Int), 1 ≤ m →
       (collect_links_scroll_based env initH t m).1.Nodup ∧
         ((collect_links_scroll_based env initH t m).1.length : Int) ≤ m) ∧
    (∀ (env : Nat → List Article) (t m : Int), 1 ≤ m →
       (collect_links_article_based env t m).Nodup ∧
         ((collect_links_article_based env t m).length : Int) ≤ m) := by
  refine ⟨?_, ?_, ?_⟩
  · intro links l h
    exact setAdd_of_mem h
  · intro env initH t m hm
    exact scrollGo_inv env t m MAX_SCROLLS 0 0 initH [] List.nodup_nil
      (by simpa using hm)
  · intro env t m hm
    exact artGo_inv env t m MAX_SCROLLS 0 [] List.nodup_nil (by simp; omega)

theorem link_collections_dedup_and_bounded_witness :
    setAdd ["u"] "u" = ["u"] ∧
    ((collect_links_scroll_based (fun _ => ⟨none, 100⟩) 100 2024 1).1.Nodup ∧
      ((collect_links_scroll_based (fun _ => ⟨none, 100⟩) 100 2024
        1).1.length : Int) ≤ 1) ∧
    ((collect_links_article_based (fun _ => []) 2024 1).Nodup ∧
      ((collect_links_article_based (fun _ => []) 2024 1).length : Int) ≤ 1) :=
  ⟨link_collections_dedup_and_bounded.1 ["u"] "u" (by decide),
   link_collections_dedup_and_bounded.2.1 (fun _ => ⟨none, 100⟩) 100 2024 1
     (by norm_num),
   link_collections_dedup_and_bounded.2.2 (fun _ => []) 2024 1 (by norm_num)⟩

/-- C8 counterexample: with `max_links = 0` the scroll-based collector
still adds one matching link before the `len(links) >= max_links` check
runs, so it returns a collection of size 1, exceeding `max_links`. -/
theorem scroll_collect_exceeds_zero_max_links :
    (collect_links_scroll_based
      (fun _ => ⟨some [⟨none, some "15/01/2024", some (some "u"), none⟩], 100⟩)
      100 2024 0).1 = ["u"] ∧
    ¬ (((collect_links_scroll_based
      (fun _ => ⟨some [⟨none, some "15/01/2024", some (some "u"), none⟩], 100⟩)
      100 2024 0).1.length : Int) ≤ 0) := by
  constructor
  · decide
  · decide

end ZNews
